import Mathlib

/-!
Verification of the kosen-syllabus extraction pipeline.

This file shallowly embeds the pure computational core of the repository:

* `src/lib/evaluationNormalizer.ts` (percentage normalizer),
* `src/lib/types.ts` (evaluation validation, record validation, assembler),
* `src/lib/gradeCalculatorV2.ts` (both iterations found in the file),
* `src/lib/chunkedProcessor.ts` (bounded concurrent batch runner),
* the evaluation-table extraction strategy of `app/api/syllabus/detail/route.ts`,
* the Stage-1 zero-URL failure path of the onboarding orchestrator and the two
  iterations of `app/api/syllabus/urls/route.ts`.

Conventions: JavaScript numbers are modelled as exact rationals (`ℚ`);
`Math.floor`/`Math.ceil` are `Int.floor`/`Int.ceil`; `Math.round x` is
`⌊x + 1/2⌋` (JS rounds half towards +∞); `parseInt` is modelled by
`parseIntJS`; `NaN` never arises on the modelled paths (the sources guard
every division), so `isNaN` checks collapse to `false`.  Strings are
processed as `List Char` with structural-recursive helpers so that concrete
runs reduce inside the kernel.  Promise-based code is modelled by explicit
result values; where the order in which a chunk's promises settle matters,
it is passed in as an explicit settle-order argument.
-/

/-! ### Generic list helpers (structural, kernel-reducible) -/

/-- JS `array.map((x, idx) => f idx x)`, with an explicit start index. -/
def mapWithIndex (f : ℕ → α → β) : ℕ → List α → List β
  | _, [] => []
  | i, x :: xs => f i x :: mapWithIndex f (i + 1) xs

/-- In-place update `l[i] = f l[i]` of a JS array, as a pure list operation. -/
def listModify (f : α → α) : ℕ → List α → List α
  | _, [] => []
  | 0, x :: xs => f x :: xs
  | n + 1, x :: xs => x :: listModify f n xs

/-! ### `lib/evaluationNormalizer.ts` — the Percentage Normalizer -/

/-- An evaluation item of `evaluationNormalizer.ts` (`{name, weight}`; the
optional `id`/`maxPoints` fields are carried through unchanged by the source
and are omitted here). -/
structure EvaluationItem where
  name : String
  weight : ℚ
deriving DecidableEq

instance : Inhabited EvaluationItem := ⟨⟨"", 0⟩⟩

/-- `items.reduce((s, i) => s + i.weight, 0)`. -/
def sumWeights (items : List EvaluationItem) : ℚ :=
  items.foldl (fun s i => s + i.weight) 0

/-- Weight of `arr[i]` with the JS out-of-bounds access replaced by the
default item (never exercised on the modelled paths). -/
def weightAt (arr : List EvaluationItem) (i : ℕ) : ℚ :=
  (arr.getD i default).weight

/-- The `reduce`-based search for the index of the first maximal weight in
`normalizeToHundred`:
`normalized.reduce((maxI, item, i, arr) => item.weight > arr[maxI].weight ? i : maxI, 0)`. -/
def jsMaxIdx (arr : List EvaluationItem) : ℕ :=
  (List.range arr.length).foldl
    (fun maxI i => if weightAt arr i > weightAt arr maxI then i else maxI) 0

/-- The scaling step of `normalizeToHundred`:
`items.map(item => ({...item, weight: Math.floor((item.weight / total) * 100)}))`
where `total` is the weight sum of the input list. -/
def scaledOf (items : List EvaluationItem) : List EvaluationItem :=
  items.map fun item =>
    { item with weight := ((⌊item.weight / sumWeights items * 100⌋ : ℤ) : ℚ) }

/-- Integer equal share `Math.floor(100 / items.length)` of the zero-sum
branch of `normalizeToHundred`. -/
def equalShare (items : List EvaluationItem) : ℚ :=
  ((⌊(100 : ℚ) / items.length⌋ : ℤ) : ℚ)

/-- `normalizeToHundred` of `lib/evaluationNormalizer.ts`.  The source's
`let` bindings (`total`, `equal`, `remainder`, `normalized`, `currentTotal`,
`diff`) are inlined (via `sumWeights`, `equalShare`, `scaledOf`), which does
not change any value since the source never mutates them before use. -/
def normalizeToHundred (items : List EvaluationItem) : List EvaluationItem :=
  if items.length = 0 then items
  else if sumWeights items = 100 then items
  else if sumWeights items = 0 then
    mapWithIndex
      (fun idx item =>
        { item with weight := equalShare items +
            (if idx = 0 then 100 - equalShare items * items.length else 0) })
      0 items
  else if 100 - sumWeights (scaledOf items) = 0 then scaledOf items
  else
    listModify
      (fun it => { it with weight := it.weight + (100 - sumWeights (scaledOf items)) })
      (jsMaxIdx (scaledOf items)) (scaledOf items)

/-! ### `lib/types.ts` — evaluation validation, record validation, assembler -/

/-- An evaluation-criteria entry `{name, percentage}` of `SyllabusDetail`. -/
structure EvalCrit where
  name : String
  percentage : ℚ
deriving DecidableEq

/-- `criteria.reduce((sum, c) => sum + c.percentage, 0)`. -/
def sumPercentages (criteria : List EvalCrit) : ℚ :=
  criteria.foldl (fun s c => s + c.percentage) 0

/-- JS `Math.round`: rounds half towards positive infinity. -/
def jsRound (q : ℚ) : ℤ := ⌊q + 1 / 2⌋

/-- Final adjustment step of `normalizeEvaluationPercentages`:
`if (difference !== 0 && normalized.length > 0) normalized[0].percentage += difference`
where `difference = 100 - normalizedTotal`. -/
def fixRoundingError (normalized : List EvalCrit) : List EvalCrit :=
  if 100 - sumPercentages normalized ≠ 0 ∧ normalized.length > 0 then
    listModify
      (fun c => { c with percentage := c.percentage + (100 - sumPercentages normalized) })
      0 normalized
  else normalized

/-- `normalizeEvaluationPercentages` of `lib/types.ts`: proportional scaling
rounded to two decimal places (`Math.round(x * 100) / 100`), with any
remaining difference added to the first item; a zero total returns the input
unchanged. -/
def normalizeEvaluationPercentages (criteria : List EvalCrit) : List EvalCrit :=
  if sumPercentages criteria = 0 then criteria
  else
    fixRoundingError
      (criteria.map fun c =>
        { c with percentage :=
            ((jsRound (c.percentage / sumPercentages criteria * 100 * 100) : ℤ) : ℚ) / 100 })

/-- Result record of `validateEvaluationTotal`. -/
structure EvaluationValidationResult where
  isValid : Bool
  total : ℚ
  errors : List String
  normalized : Option (List EvalCrit)
deriving DecidableEq

/-- `validateEvaluationTotal` of `lib/types.ts`: exact 100 passes unchanged,
a total within ±2 of 100 passes with a warning and a normalized list,
anything else fails.  (JS renders numbers into the messages with template
literals; `toString` on `ℚ` stands in for that rendering.) -/
def validateEvaluationTotal (criteria : List EvalCrit) : EvaluationValidationResult :=
  if criteria.length = 0 then
    { isValid := false, total := 0, errors := ["評価割合が空です"], normalized := none }
  else if sumPercentages criteria = 100 then
    { isValid := true, total := 100, errors := [], normalized := none }
  else if |sumPercentages criteria - 100| ≤ 2 then
    { isValid := true, total := 100
      errors := ["警告: 元々の合計は" ++ toString (sumPercentages criteria) ++
        "%でしたが、正規化されました"]
      normalized := some (normalizeEvaluationPercentages criteria) }
  else
    { isValid := false, total := sumPercentages criteria
      errors :=
        ["評価割合の合計が" ++ toString (sumPercentages criteria) ++
          "%です（100%である必要があります）"] ++
        (if sumPercentages criteria > 100 then
          ["超過分: " ++ toString (sumPercentages criteria - 100) ++ "%"]
        else ["不足分: " ++ toString (100 - sumPercentages criteria) ++ "%"])
      normalized := none }

/-- JS-whitespace test used when modelling `String.prototype.trim` and the
regex class `\s` (ASCII subset; the sources only meet ASCII whitespace). -/
def isJsSpace (c : Char) : Bool :=
  c = ' ' ∨ c = '\t' ∨ c = '\n' ∨ c = '\r' ∨ c = '\x0b' ∨ c = '\x0c'

/-- JS `String.prototype.trim` on a character list. -/
def trimL (l : List Char) : List Char :=
  ((l.dropWhile isJsSpace).reverse.dropWhile isJsSpace).reverse

/-- JS `String.prototype.trim`. -/
def trimS (s : String) : String := String.mk (trimL s.data)

/-- The extracted-syllabus record `SyllabusDetail` of `lib/types.ts`
(`term`/`classType` are kept as strings since `validateSyllabusDetail`
receives untrusted `any`-typed input and checks them itself). -/
structure SyllabusDetailR where
  subjectName : String
  instructor : String
  credits : ℚ
  term : String
  evaluationCriteria : List EvalCrit
  classType : String
  description : Option String
deriving DecidableEq

/-- Result of `validateSyllabusDetail`. -/
structure ValidationOutcome where
  isValid : Bool
  data : Option SyllabusDetailR
  errors : List String
deriving DecidableEq

/-- Error accumulation of `validateSyllabusDetail` of `lib/types.ts`: every
field check contributes its message (in source order); nothing
short-circuits.  The JS `typeof` checks always pass on this typed model. -/
def syllabusDetailErrors (detail : SyllabusDetailR) : List String :=
  (if detail.subjectName = "" then ["科目名が無効です"] else []) ++
  (if detail.instructor = "" then ["担当教員が無効です"] else []) ++
  (if ¬(1 ≤ detail.credits ∧ detail.credits ≤ 10) then ["単位数が無効です（1〜10の範囲）"] else []) ++
  (if detail.term ∉ (["spring", "fall", "both"] : List String) then ["開講期が無効です"] else []) ++
  (if detail.classType ∉ (["lecture", "practical", "experiment"] : List String) then
    ["授業種別が無効です"] else []) ++
  (if detail.evaluationCriteria.length = 0 then ["評価割合が無効です"]
   else if (validateEvaluationTotal detail.evaluationCriteria).isValid then []
   else (validateEvaluationTotal detail.evaluationCriteria).errors)

/-- `validateSyllabusDetail` of `lib/types.ts`: aggregate all rule
violations; on success emit the trimmed record, substituting the normalized
evaluation criteria when `validateEvaluationTotal` produced one
(`evalValidation.normalized || detail.evaluationCriteria`). -/
def validateSyllabusDetail (detail : SyllabusDetailR) : ValidationOutcome :=
  if syllabusDetailErrors detail ≠ [] then
    { isValid := false, data := none, errors := syllabusDetailErrors detail }
  else
    { isValid := true
      data := some
        { subjectName := trimS detail.subjectName
          instructor := trimS detail.instructor
          credits := detail.credits
          term := detail.term
          evaluationCriteria :=
            (validateEvaluationTotal detail.evaluationCriteria).normalized.getD
              detail.evaluationCriteria
          classType := detail.classType
          description :=
            match detail.description with
            | none => none
            | some s => if trimS s = "" then none else some (trimS s) }
      errors := [] }

/-- One evaluation criterion of an assembled `Subject`
(`{id, name, weight, maxPoints}`). -/
structure EvaluationCriteriaR where
  id : String
  name : String
  weight : ℚ
  maxPoints : ℚ
deriving DecidableEq

/-- A recorded grade (`{criteriaId, points}`; the `id`/`date` fields of the
source interface play no role in any computation modelled here). -/
structure GradeR where
  criteriaId : String
  points : ℚ
deriving DecidableEq

/-- An absence record (`{id, date, approved}`; the optional `reason` field
plays no role in any computation modelled here). -/
structure AbsenceRecordR where
  id : String
  date : String
  approved : Bool
deriving DecidableEq

/-- The canonical `Subject` record of `lib/types.ts`.  The source's `id`
field is generated from `Date.now()`/`Math.random()` (non-deterministic,
never read by any modelled computation) and is omitted. -/
structure SubjectR where
  name : String
  instructor : String
  courseType : String
  classType : String
  credits : ℚ
  passingGrade : ℚ
  evaluationCriteria : List EvaluationCriteriaR
  grades : List GradeR
  absences : ℚ
  absenceRecords : List AbsenceRecordR
  absenceThreshold : ℚ
  classesPerSemester : ℚ
  semester : String
  academicYear : ℕ
deriving DecidableEq

/-- `syllabusDetailToSubject` of `lib/types.ts` — the Record Assembler. -/
def syllabusDetailToSubject (detail : SyllabusDetailR) (semester : String)
    (academicYear : ℕ) : SubjectR :=
  { name := detail.subjectName
    instructor := detail.instructor
    courseType := "required"
    classType := detail.classType
    credits := detail.credits
    passingGrade := 60
    evaluationCriteria :=
      mapWithIndex
        (fun idx e => { id := "eval-" ++ toString idx, name := e.name,
                        weight := e.percentage, maxPoints := 100 })
        0 detail.evaluationCriteria
    grades := []
    absences := 0
    absenceRecords := []
    absenceThreshold :=
      if detail.classType = "experiment" then ((⌈detail.credits * 15 / 10⌉ : ℤ) : ℚ)
      else ((⌊detail.credits * 15 / 3⌋ : ℤ) : ℚ)
    classesPerSemester := detail.credits * 15
    semester := semester
    academicYear := academicYear }

/-! ### `lib/gradeCalculatorV2.ts`

The file contains two iterations of the calculator.  `V1` is the first one
(attendance failure at `absences > limit`); `V2` is the second one
(attendance failure at `absences >= limit`, flagged in its header comment as
the deliberate Step-2 change).  Both are embedded. -/

/-- JS `subject.classesPerSemester || 40` (`0` is the only falsy rational). -/
def classCountOrForty (subject : SubjectR) : ℚ :=
  if subject.classesPerSemester = 0 then 40 else subject.classesPerSemester

/-- `grades.reduce((sum, g) => sum + g.points, 0)`. -/
def sumPoints (grades : List GradeR) : ℚ :=
  grades.foldl (fun s g => s + g.points) 0

/-- Weighted-average accumulation loop shared verbatim by both iterations of
`calculateSubjectGrade`: returns `(totalWeightedScore, totalWeight)`. -/
def weightedScoreAcc (subject : SubjectR) : ℚ × ℚ :=
  subject.evaluationCriteria.foldl
    (fun acc criteria =>
      if (subject.grades.filter fun g => g.criteriaId = criteria.id) = [] then acc
      else
        (acc.1 +
          sumPoints (subject.grades.filter fun g => g.criteriaId = criteria.id) /
            (subject.grades.filter fun g => g.criteriaId = criteria.id).length /
            criteria.maxPoints * 100 * criteria.weight,
         acc.2 + criteria.weight))
    (0, 0)

/-- `calculateSubjectGrade` (identical in both iterations): `0` with no
criteria or no grades, otherwise the rounded weighted average. -/
def calculateSubjectGrade (subject : SubjectR) : ℚ :=
  if subject.evaluationCriteria.length = 0 ∨ subject.grades.length = 0 then 0
  else if (weightedScoreAcc subject).2 = 0 then 0
  else ((jsRound ((weightedScoreAcc subject).1 / (weightedScoreAcc subject).2) : ℤ) : ℚ)

/-- `predictFinalGrade` (identical in both iterations); the defaulted
parameters (`continuousGrade = 0`, `finalExamWeight = 0.4`) are passed
explicitly at call sites. -/
def predictFinalGrade (continuousGrade finalExamWeight : ℚ) : ℚ :=
  if continuousGrade = 0 then 0
  else ((jsRound (continuousGrade * (1 - finalExamWeight) + finalExamWeight * 100) : ℤ) : ℚ)

/-- `pointsNeededToPass` (identical in both iterations); the defaulted
`finalExamWeight = 0.4` is passed explicitly at call sites. -/
def pointsNeededToPass (subject : SubjectR) (passingGrade finalExamWeight : ℚ) : ℚ :=
  if calculateSubjectGrade subject ≥ passingGrade ∨ calculateSubjectGrade subject = 0 then 0
  else ((⌈max 0 ((passingGrade - calculateSubjectGrade subject * (1 - finalExamWeight)) /
      finalExamWeight)⌉ : ℤ) : ℚ)

/-- `calculateSubjectGPA` (identical in both iterations). -/
def calculateSubjectGPA (subject : SubjectR) : ℚ :=
  if calculateSubjectGrade subject ≥ 90 then 4
  else if calculateSubjectGrade subject ≥ 80 then 3
  else if calculateSubjectGrade subject ≥ 70 then 2
  else if calculateSubjectGrade subject ≥ 60 then 1
  else 0

/-- Grade-status record returned by `getGradeStatus`. -/
structure GradeStatusR where
  value : ℚ
  status : String
  predictedFinal : ℚ
  needsToPass : ℚ
  absenceWarning : Bool
  canPass : Bool
  gpa : ℚ
deriving DecidableEq

namespace V1

/-- First iteration of `calculateAbsenceLimit`: `experiment` and `practical`
each get `Math.ceil(classCount / 10)`, everything else
`Math.floor(classCount / 3)`. -/
def calculateAbsenceLimit (subject : SubjectR) : ℚ :=
  if subject.classType = "experiment" then ((⌈classCountOrForty subject / 10⌉ : ℤ) : ℚ)
  else if subject.classType = "practical" then ((⌈classCountOrForty subject / 10⌉ : ℤ) : ℚ)
  else ((⌊classCountOrForty subject / 3⌋ : ℤ) : ℚ)

/-- First iteration of `calculateRemainingAttendance`:
`Math.max(0, limit - subject.absences)`. -/
def calculateRemainingAttendance (subject : SubjectR) : ℚ :=
  max 0 (calculateAbsenceLimit subject - subject.absences)

/-- First iteration of `canStillPass`: attendance failure only strictly
beyond the limit (`subject.absences > absenceLimit`). -/
def canStillPass (subject : SubjectR) : Bool :=
  if subject.absences > calculateAbsenceLimit subject then false
  else if calculateSubjectGrade subject ≥ subject.passingGrade then true
  else pointsNeededToPass subject subject.passingGrade (2 / 5) ≤ 100

/-- First iteration of `getGradeStatus` (`absences > absenceLimit` drives
both the warning flag and the `fail` branch). -/
def getGradeStatus (subject : SubjectR) : GradeStatusR :=
  { value := calculateSubjectGrade subject
    status :=
      if subject.absences > calculateAbsenceLimit subject then "fail"
      else if calculateRemainingAttendance subject ≤ 2 then "risk"
      else if ¬canStillPass subject then "fail"
      else if calculateSubjectGrade subject ≥ 60 then "safe"
      else if calculateSubjectGrade subject ≥ 30 then "risk"
      else "fail"
    predictedFinal := predictFinalGrade (calculateSubjectGrade subject) (2 / 5)
    needsToPass := pointsNeededToPass subject subject.passingGrade (2 / 5)
    absenceWarning := subject.absences > calculateAbsenceLimit subject
    canPass := canStillPass subject
    gpa := calculateSubjectGPA subject }

end V1

namespace V2

/-- Second iteration of `calculateAbsenceLimit` (same values as `V1`, the
two 1/10 branches merged with `||`). -/
def calculateAbsenceLimit (subject : SubjectR) : ℚ :=
  if subject.classType = "experiment" ∨ subject.classType = "practical" then
    ((⌈classCountOrForty subject / 10⌉ : ℤ) : ℚ)
  else ((⌊classCountOrForty subject / 3⌋ : ℤ) : ℚ)

/-- Second iteration of `calculateRemainingAttendance`: may go negative
(`limit - subject.absences`, no clamping). -/
def calculateRemainingAttendance (subject : SubjectR) : ℚ :=
  calculateAbsenceLimit subject - subject.absences

/-- Second iteration of `canStillPass`: attendance failure already at the
limit (`subject.absences >= absenceLimit`). -/
def canStillPass (subject : SubjectR) : Bool :=
  if subject.absences ≥ calculateAbsenceLimit subject then false
  else if calculateSubjectGrade subject ≥ subject.passingGrade then true
  else pointsNeededToPass subject subject.passingGrade (2 / 5) ≤ 100

/-- Second iteration of `getGradeStatus` (`absences >= absenceLimit` drives
both the warning flag and the `fail` branch). -/
def getGradeStatus (subject : SubjectR) : GradeStatusR :=
  { value := calculateSubjectGrade subject
    status :=
      if subject.absences ≥ calculateAbsenceLimit subject then "fail"
      else if calculateRemainingAttendance subject ≤ 2 then "risk"
      else if ¬canStillPass subject then "fail"
      else if calculateSubjectGrade subject ≥ 60 then "safe"
      else if calculateSubjectGrade subject ≥ 30 then "risk"
      else "fail"
    predictedFinal := predictFinalGrade (calculateSubjectGrade subject) (2 / 5)
    needsToPass := pointsNeededToPass subject subject.passingGrade (2 / 5)
    absenceWarning := subject.absences ≥ calculateAbsenceLimit subject
    canPass := canStillPass subject
    gpa := calculateSubjectGPA subject }

end V2

/-! ### `lib/chunkedProcessor.ts` — the bounded concurrent Batch Runner

`processInChunks` runs its items chunk by chunk; a worker is modelled as a
pure `ℕ → α → Except ε ρ` (global index and item to settled outcome).  The
accumulation order is deterministic: `Promise.all` preserves positional
order inside a chunk regardless of settle order, so `successful`/`failed`
do not depend on timing.  Recursion is fuelled by `items.length`, which is
sufficient for any `chunkSize ≥ 1`; the source loops forever when
`chunkSize = 0` (`i += 0`), a case excluded by hypothesis in the theorems. -/

/-- A `failed` entry `{index, error, item}` of `ProcessingResult`. -/
structure FailedEntry (ε α : Type) where
  index : ℕ
  error : ε
  item : α
deriving DecidableEq

/-- `ProcessingResult` of `lib/chunkedProcessor.ts`. -/
structure ProcessingResult (ρ ε α : Type) where
  successful : List ρ
  failed : List (FailedEntry ε α)
  total : ℕ
deriving DecidableEq

/-- `chunk.map((item, offsetIndex) => ...)`: settle every worker of a chunk,
pairing each outcome with its global index and item. -/
def settleChunk (worker : ℕ → α → Except ε ρ) : ℕ → List α → List (ℕ × α × Except ε ρ)
  | _, [] => []
  | i, x :: xs => (i, x, worker i x) :: settleChunk worker (i + 1) xs

/-- Partition step of the chunk loop: `successful.push(chunkResult.result)`
for each fulfilled outcome, in positional order. -/
def chunkSuccesses (results : List (ℕ × α × Except ε ρ)) : List ρ :=
  results.filterMap fun r => match r.2.2 with | .ok v => some v | .error _ => none

/-- Partition step of the chunk loop: `failed.push({index, error, item})`
for each rejected outcome, in positional order. -/
def chunkFailures (results : List (ℕ × α × Except ε ρ)) : List (FailedEntry ε α) :=
  results.filterMap fun r =>
    match r.2.2 with | .error e => some ⟨r.1, e, r.2.1⟩ | .ok _ => none

/-- The `for (let i = 0; i < items.length; i += chunkSize)` loop of
`processInChunks`, fuelled; `i` is the first global index of the current
chunk. -/
def processChunksGo (worker : ℕ → α → Except ε ρ) (chunkSize : ℕ) :
    ℕ → ℕ → List α → List ρ × List (FailedEntry ε α)
  | _, _, [] => ([], [])
  | 0, _, _ :: _ => ([], [])
  | fuel + 1, i, x :: xs =>
    (chunkSuccesses (settleChunk worker i ((x :: xs).take chunkSize)) ++
        (processChunksGo worker chunkSize fuel (i + chunkSize) ((x :: xs).drop chunkSize)).1,
     chunkFailures (settleChunk worker i ((x :: xs).take chunkSize)) ++
        (processChunksGo worker chunkSize fuel (i + chunkSize) ((x :: xs).drop chunkSize)).2)

/-- `processInChunks` of `lib/chunkedProcessor.ts` (the inter-chunk delay
performs no computation and is not represented). -/
def processInChunks (items : List α) (worker : ℕ → α → Except ε ρ)
    (chunkSize : ℕ) : ProcessingResult ρ ε α :=
  { successful := (processChunksGo worker chunkSize items.length 0 items).1
    failed := (processChunksGo worker chunkSize items.length 0 items).2
    total := items.length }

/-- Expected `successful` list, written from the claim: every succeeding
item's value, in index order. -/
def recordedSuccesses (worker : ℕ → α → Except ε ρ) : ℕ → List α → List ρ
  | _, [] => []
  | i, x :: xs =>
    match worker i x with
    | .ok v => v :: recordedSuccesses worker (i + 1) xs
    | .error _ => recordedSuccesses worker (i + 1) xs

/-- Expected `failed` list, written from the claim: every failing item's
`{index, error, item}`, in index order. -/
def recordedFailures (worker : ℕ → α → Except ε ρ) : ℕ → List α → List (FailedEntry ε α)
  | _, [] => []
  | i, x :: xs =>
    match worker i x with
    | .ok _ => recordedFailures worker (i + 1) xs
    | .error e => (⟨i, e, x⟩ : FailedEntry ε α) :: recordedFailures worker (i + 1) xs

/-! #### Progress-callback trace of `processInChunks`

`onProgress?.(itemIndex + 1, items.length, item)` runs in the `.then`
continuation of one worker, i.e. at the moment that worker's promise
settles.  Within a chunk the settle order is not determined by the code (it
depends on how fast each worker finishes), so it is passed explicitly: one
list of chunk-local offsets per chunk, each a permutation of the chunk's
positions.  A missing entry defaults to index order.  Each emitted call
records the two arguments actually passed plus how many items had settled
at that moment. -/

/-- One observed `onProgress` call: its two arguments and the number of
items (of the whole run) already settled when it fired. -/
structure ProgressCall where
  firstArg : ℕ
  secondArg : ℕ
  settledAtCall : ℕ
deriving DecidableEq

/-- Calls emitted by one chunk, settling in the given offset order; `base`
is the chunk's first global index (equal to the number of items settled in
earlier chunks), `k` counts settles inside this chunk. -/
def chunkProgressCalls (worker : ℕ → α → Except ε ρ) (total base : ℕ)
    (chunk : List α) : List ℕ → ℕ → List ProgressCall
  | [], _ => []
  | off :: order, k =>
    (match chunk.get? off with
     | some item =>
       match worker (base + off) item with
       | .ok _ => [⟨base + off + 1, total, base + k + 1⟩]
       | .error _ => []
     | none => []) ++ chunkProgressCalls worker total base chunk order (k + 1)

/-- Chunk loop of the progress trace (fuelled like `processChunksGo`). -/
def processProgressGo (worker : ℕ → α → Except ε ρ) (chunkSize total : ℕ) :
    ℕ → ℕ → List α → List (List ℕ) → List ProgressCall
  | _, _, [], _ => []
  | 0, _, _ :: _, _ => []
  | fuel + 1, i, x :: xs, schedule =>
    chunkProgressCalls worker total i ((x :: xs).take chunkSize)
        (schedule.headD (List.range ((x :: xs).take chunkSize).length)) 0 ++
      processProgressGo worker chunkSize total fuel (i + chunkSize)
        ((x :: xs).drop chunkSize) schedule.tail

/-- Full `onProgress` trace of a `processInChunks` run under the given
per-chunk settle orders. -/
def processInChunksProgress (items : List α) (worker : ℕ → α → Except ε ρ)
    (chunkSize : ℕ) (schedule : List (List ℕ)) : List ProgressCall :=
  processProgressGo worker chunkSize items.length items.length 0 items schedule

/-! ### String machinery (structural, kernel-reducible)

JS string primitives used by the extractor and the orchestrator, modelled on
`List Char`. -/

/-- JS `text.split(sep)` (empty pieces kept, just like JS). -/
def splitChar (sep : Char) : List Char → List (List Char)
  | [] => [[]]
  | c :: rest =>
    match splitChar sep rest with
    | [] => [[c]]
    | cur :: parts => if c = sep then [] :: cur :: parts else (c :: cur) :: parts

/-- JS `l.startsWith(pat)`. -/
def startsWithL : List Char → List Char → Bool
  | [], _ => true
  | _ :: _, [] => false
  | p :: ps, c :: cs => p = c ∧ startsWithL ps cs

/-- JS `l.includes(sub)` (substring containment). -/
def containsSub (l sub : List Char) : Bool :=
  match l with
  | [] => sub = []
  | _ :: rest => startsWithL sub l ∨ containsSub rest sub

/-- Decimal digit value. -/
def digitVal (c : Char) : Option ℕ :=
  if '0' ≤ c ∧ c ≤ '9' then some (c.toNat - '0'.toNat) else none

/-- Longest leading run of decimal digits. -/
def takeDigits : List Char → List ℕ
  | [] => []
  | c :: cs => match digitVal c with | some d => d :: takeDigits cs | none => []

/-- Value of a digit list (most significant first). -/
def digitsToNat : List ℕ → ℕ → ℕ
  | [], acc => acc
  | d :: ds, acc => digitsToNat ds (acc * 10 + d)

/-- JS `parseInt(s, 10)`: skip leading whitespace, optional sign, longest
digit prefix; `none` models `NaN`. -/
def parseIntJS (l : List Char) : Option ℤ :=
  match l.dropWhile isJsSpace with
  | '-' :: rest =>
    if takeDigits rest = [] then none else some (-(digitsToNat (takeDigits rest) 0 : ℤ))
  | '+' :: rest =>
    if takeDigits rest = [] then none else some ((digitsToNat (takeDigits rest) 0 : ℤ))
  | other =>
    if takeDigits other = [] then none else some ((digitsToNat (takeDigits other) 0 : ℤ))

/-! ### `app/api/syllabus/detail/route.ts` — evaluation-table extraction

Strategy 1 of `extractEvaluationCriteria`: the regex
`/###\s*評価割合([\s\S]*?)(?=\n###|\n©|$)/` picks the section after the
first `### 評価割合` heading, lazily up to the next `\n###`/`\n©` (or the
whole document when the heading is absent); its pipe-delimited rows are then
scanned for a keyword header row and the `総合評価割合` value row. -/

/-- Evaluation-category keywords (`EVAL_KEYWORDS` of the source). -/
def EVAL_KEYWORDS : List String :=
  ["試験", "レポート", "平常点", "その他", "小テスト", "出席", "報告書"]

/-- Match `###\s*評価割合` at the head of the list, returning the remainder
after the keyword. -/
def matchEvalHeading (l : List Char) : Option (List Char) :=
  if startsWithL "###".data l then
    if startsWithL "評価割合".data ((l.drop 3).dropWhile isJsSpace) then
      some (((l.drop 3).dropWhile isJsSpace).drop "評価割合".data.length)
    else none
  else none

/-- Lazy capture `([\s\S]*?)` up to the lookahead `(?=\n###|\n©|$)`. -/
def captureEvalSection : List Char → List Char
  | [] => []
  | c :: rest =>
    if startsWithL "\n###".data (c :: rest) ∨ startsWithL "\n©".data (c :: rest) then []
    else c :: captureEvalSection rest

/-- First match of the section regex over the document. -/
def findEvalSection : List Char → Option (List Char)
  | [] => none
  | c :: rest =>
    match matchEvalHeading (c :: rest) with
    | some after => some (captureEvalSection after)
    | none => findEvalSection rest

/-- Separator-row test `/^\|[\s|:-]+\|$/` on a trimmed line. -/
def isSeparatorRow (line : List Char) : Bool :=
  line.head? = some '|' ∧ line.getLast? = some '|' ∧
  (line.drop 1).dropLast ≠ [] ∧
  ((line.drop 1).dropLast.all fun c => isJsSpace c ∨ c = '|' ∨ c = ':' ∨ c = '-')

/-- `line.split('|').map(c => c.trim()).slice(1, cols.length - 1)`. -/
def rowCells (line : List Char) : List (List Char) :=
  (((splitChar '|' line).map trimL).drop 1).dropLast

/-- Row-scanning loop of strategy 1: remember the last keyword row as the
header, stop at the first `総合評価割合` row seen after a header; returns
`(headerCols, valueCols)`. -/
def findHeaderValueRows : List (List Char) → List (List Char) →
    List (List Char) × List (List Char)
  | [], header => (header, [])
  | line :: rest, header =>
    if isSeparatorRow line then findHeaderValueRows rest header
    else if (rowCells line).length < 2 then findHeaderValueRows rest header
    else if EVAL_KEYWORDS.any (fun kw => (rowCells line).contains kw.data) then
      findHeaderValueRows rest (rowCells line)
    else if (rowCells line).headD [] = "総合評価割合".data ∧ header.length > 0 then
      (header, (rowCells line).drop 1)
    else findHeaderValueRows rest header

/-- Column-pairing loop of strategy 1: header column `nameOffset + i` is
paired with value column `i`; pairs with an empty name, the literal `合計`
name, a non-numeric value or a value `≤ 0` are dropped. -/
def pairEvalColumns (header : List (List Char)) (nameOffset : ℕ) :
    ℕ → List (List Char) → List EvalCrit
  | _, [] => []
  | i, v :: vs =>
    (if header.getD (nameOffset + i) [] = [] ∨
        header.getD (nameOffset + i) [] = "合計".data then []
     else
       match parseIntJS v with
       | none => []
       | some n =>
         if n ≤ 0 then []
         else [⟨String.mk (header.getD (nameOffset + i) []), (n : ℚ)⟩]) ++
      pairEvalColumns header nameOffset (i + 1) vs

/-- Section text the table strategy scans: the `### 評価割合` section, or
the whole document when the heading is absent. -/
def evalSectionOf (content : String) : List Char :=
  (findEvalSection content.data).getD content.data

/-- `section.split('\n').map(l => l.trim()).filter(l => l.startsWith('|'))`. -/
def evalTableLines (content : String) : List (List Char) :=
  ((splitChar '\n' (evalSectionOf content)).map trimL).filter fun l => startsWithL "|".data l

/-- `(headerCols, valueCols)` found by the row scan. -/
def evalHeaderValue (content : String) : List (List Char) × List (List Char) :=
  findHeaderValueRows (evalTableLines content) []

/-- `headerCols[0] === '' ? 1 : 0` — the label-column skip. -/
def evalNameOffset (content : String) : ℕ :=
  if (evalHeaderValue content).1.headD [] = [] then 1 else 0

/-- Strategy 1 (the table strategy) of `extractEvaluationCriteria`:
`some result` when it produces a non-empty list (in which case the source
returns it and never consults strategies 2/3), `none` when the source would
fall through. -/
def extractEvaluationCriteriaTable (content : String) : Option (List EvalCrit) :=
  if (evalHeaderValue content).1.length > 0 ∧ (evalHeaderValue content).2.length > 0 then
    if (pairEvalColumns (evalHeaderValue content).1 (evalNameOffset content) 0
          (evalHeaderValue content).2).length > 0 then
      some (pairEvalColumns (evalHeaderValue content).1 (evalNameOffset content) 0
        (evalHeaderValue content).2)
    else none
  else none

/-! ### Stage-1 orchestration — zero-URL failure path (C9)

Client side: the `syllabusUrls.length === 0` branch of `handleFetchSyllabus`
in the onboarding component.  Server side: the two iterations of
`app/api/syllabus/urls/route.ts` found in the repository — the one at that
path returns only `{schoolId, department, grade, year, totalUrls, urls}`,
while the other iteration additionally returns `scrapedUrl` (the listing URL
scraped) and `totalLinks` (the raw link count). -/

/-- The fields of the Stage-1 JSON response that the client's zero-URL
branch reads (absent JSON fields are `none`). -/
structure UrlsResponseR where
  error : Option String
  scrapedUrl : Option String
  totalLinks : Option ℕ
  urls : List String
deriving DecidableEq

/-- JS `parts.join(' / ')`. -/
def joinParts (sep : String) : List String → String
  | [] => ""
  | [x] => x
  | x :: y :: rest => x ++ sep ++ joinParts sep (y :: rest)

/-- The `parts` array assembled by the client's zero-URL branch. -/
def zeroUrlFailureParts (urlData : UrlsResponseR) : List String :=
  (match urlData.error with | some e => [e] | none => []) ++
  (match urlData.scrapedUrl with | some u => ["対象URL: " ++ u] | none => []) ++
  (match urlData.totalLinks with
   | some n => ["取得リンク数: " ++ toString n ++ "件（シラバスURL: 0件）"]
   | none => [])

/-- The failure message `シラバスURLが0件でした。...` of the client's
zero-URL branch, with its parameter fallback when no diagnostic part is
available. -/
def zeroUrlFailureMessage (urlData : UrlsResponseR) (selectedSyllabusId department : String)
    (academicYear : ℕ) : String :=
  "シラバスURLが0件でした。" ++
    joinParts " / "
      (if zeroUrlFailureParts urlData = [] then
        ["school_id=" ++ selectedSyllabusId ++ ", dept=\"" ++ department ++ "\", year=" ++
          toString academicYear]
      else zeroUrlFailureParts urlData)

/-- Stage-1 termination decision of `handleFetchSyllabus`: zero URLs ends
the invocation with the failure message, otherwise Stage 2 proceeds on the
URL list. -/
def stage1Outcome (urlData : UrlsResponseR) (selectedSyllabusId department : String)
    (academicYear : ℕ) : Except String (List String) :=
  if urlData.urls.length = 0 then
    .error (zeroUrlFailureMessage urlData selectedSyllabusId department academicYear)
  else .ok urlData.urls

/-- `codeMap` of `departmentToCode` in `src/app/api/syllabus/urls/route.ts`. -/
def DEPT_CODE_MAP : List (String × String) :=
  [("工学科", "01"), ("情報エレクトロニクス系", "02"), ("機械ロボティクス系", "03"),
   ("都市デザイン系", "04"), ("機械工学科", "11"), ("電気電子工学科", "12"),
   ("電子制御工学科", "13"), ("電子情報工学科", "14"), ("環境都市工学科", "15")]

/-- `departmentToCode` of `src/app/api/syllabus/urls/route.ts`: exact key
match, then partial-inclusion match, then `'01'`. -/
def departmentToCode (department : String) : String :=
  match DEPT_CODE_MAP.find? (fun p => p.1 = department) with
  | some p => p.2
  | none =>
    match DEPT_CODE_MAP.find?
        (fun p => containsSub department.data p.1.data ∨ containsSub p.1.data department.data) with
    | some p => p.2
    | none => "01"

/-- `buildSyllabusSearchUrl` of `src/app/api/syllabus/urls/route.ts` — the
listing URL that route attempts. -/
def buildSyllabusSearchUrl (schoolId department : String) (grade year : ℕ) : String :=
  "https://syllabus.kosen-k.go.jp/Pages/PublicSyllabus?school_id=" ++ schoolId ++
    "&dept_code=" ++ departmentToCode department ++ "&grade=" ++ toString grade ++
    "&year=" ++ toString year

/-- `buildSubjectsUrl` of the other urls-route iteration — the listing URL
that iteration attempts and echoes back as `scrapedUrl`. -/
def buildSubjectsUrl (schoolId : String) (departmentId year : ℕ) : String :=
  "https://syllabus.kosen-k.go.jp/Pages/PublicSubjects?school_id=" ++ schoolId ++
    "&department_id=" ++ toString departmentId ++ "&year=" ++ toString year ++ "&lang=ja"

/-- Success response of `src/app/api/syllabus/urls/route.ts` (lines 67–74):
`{schoolId, department, grade, year, totalUrls, urls}` — no `error`, no
`scrapedUrl`, no `totalLinks`.  `survivors` stands for the output of its
link filter `extractSyllabusUrls`. -/
def urlsRouteResponseMain (survivors : List String) : UrlsResponseR :=
  { error := none, scrapedUrl := none, totalLinks := none, urls := survivors }

/-- Success response of the other urls-route iteration (lines 172–182):
additionally carries `scrapedUrl` (the listing URL attempted) and
`totalLinks` (the raw link count).  `survivors` stands for the output of its
link filter. -/
def urlsRouteResponseDiag (schoolId : String) (departmentId year : ℕ)
    (allLinks survivors : List String) : UrlsResponseR :=
  { error := none, scrapedUrl := some (buildSubjectsUrl schoolId departmentId year),
    totalLinks := some allLinks.length, urls := survivors }

/-! ### Concrete fixtures used by the theorems -/

/-- A syllabus document carrying exactly the evaluation table of the claims
(the structure documented in the source's own header comment). -/
def sampleEvalDoc : String :=
  "# 論理回路Ⅰ\n### 評価割合\n|  | 試験 | レポート | 平常点 |  | その他 | 合計 |\n| --- | --- | --- | --- | --- | --- | --- |\n| 総合評価割合 | 80 | 20 | 0 | 0 | 0 | 100 |\n"

/-- An otherwise-valid candidate whose evaluation items sum to 98. -/
def candidateBoundary98 : SyllabusDetailR :=
  { subjectName := "数学", instructor := "田中", credits := 2, term := "spring",
    evaluationCriteria := [⟨"試験", 1⟩, ⟨"レポート", 97⟩], classType := "lecture",
    description := none }

/-- A validated practical-type record with 2 credits. -/
def practicalDetail : SyllabusDetailR :=
  { subjectName := "情報実習", instructor := "佐藤", credits := 2, term := "spring",
    evaluationCriteria := [⟨"試験", 80⟩, ⟨"レポート", 20⟩], classType := "practical",
    description := none }

/-- A validated experiment-type record with 2 credits. -/
def experimentDetail : SyllabusDetailR :=
  { practicalDetail with subjectName := "物理実験", classType := "experiment" }

/-- A validated lecture-type record with 2 credits. -/
def lectureDetail : SyllabusDetailR :=
  { practicalDetail with subjectName := "論理回路Ⅰ", classType := "lecture" }

/-- The assembled lecture subject with its absence count raised to exactly
its absence limit (`floor(30 / 3) = 10`). -/
def subjectAtLimit : SubjectR :=
  { syllabusDetailToSubject lectureDetail "spring" 2025 with absences := 10 }

/-- The assembled practical subject (30 sessions). -/
def practicalSubject : SubjectR :=
  syllabusDetailToSubject practicalDetail "spring" 2025

/-- A two-item list whose weights sum to 110. -/
def itemsSum110 : List EvaluationItem := [⟨"試験", 80⟩, ⟨"レポート", 30⟩]

/-- Three zero-weight items. -/
def zeroItems3 : List EvaluationItem := [⟨"a", 0⟩, ⟨"b", 0⟩, ⟨"c", 0⟩]

/-- A worker that rejects exactly the item at global index 2. -/
def rejectAtTwo : ℕ → ℕ → Except String ℕ :=
  fun i x => if i = 2 then .error "boom" else .ok x

/-- A worker that always fulfils with its item. -/
def alwaysOk : ℕ → ℕ → Except String ℕ := fun _ x => .ok x

/-! #### Supporting lemmas about the list helpers -/

theorem listModify_id (f : α → α) (hf : ∀ a, f a = a) :
    ∀ (i : ℕ) (l : List α), listModify f i l = l := by
  intro i l
  induction l generalizing i with
  | nil => cases i <;> rfl
  | cons x xs ih =>
    cases i with
    | zero => simp [listModify, hf]
    | succ n => simp [listModify, ih]

/-! #### First-argmax characterisation of `jsMaxIdx` -/

theorem foldRangeArgmax (w : ℕ → ℚ) (n : ℕ) :
    let m := (List.range n).foldl (fun maxI i => if w i > w maxI then i else maxI) 0
    (m = 0 ∧ n = 0) ∨
      (m < n ∧ (∀ i < n, w i ≤ w m) ∧ (∀ i < m, w i < w m)) := by
  induction n with
  | zero => exact Or.inl ⟨rfl, rfl⟩
  | succ k ih =>
    simp only [List.range_succ, List.foldl_append, List.foldl_cons, List.foldl_nil]
    rcases ih with ⟨hm, hk⟩ | ⟨hmk, hmax, hstrict⟩
    · subst hk
      simp only [List.range_zero, List.foldl_nil, gt_iff_lt, lt_irrefl, if_false]
      right
      refine ⟨Nat.zero_lt_one, ?_, ?_⟩
      · intro i hi
        interval_cases i
        exact le_refl _
      · intro i hi
        exact absurd hi (Nat.not_lt_zero i)
    · set m := (List.range k).foldl (fun maxI i => if w i > w maxI then i else maxI) 0 with hmdef
      by_cases hgt : w k > w m
      · rw [if_pos hgt]
        right
        refine ⟨Nat.lt_succ_self k, ?_, ?_⟩
        · intro i hi
          rcases Nat.lt_succ_iff_lt_or_eq.mp hi with h | h
          · exact le_of_lt (lt_of_le_of_lt (hmax i h) hgt)
          · subst h; exact le_refl _
        · intro i hi
          exact lt_of_le_of_lt (hmax i hi) hgt
      · rw [if_neg hgt]
        right
        refine ⟨Nat.lt_succ_of_lt hmk, ?_, hstrict⟩
        intro i hi
        rcases Nat.lt_succ_iff_lt_or_eq.mp hi with h | h
        · exact hmax i h
        · subst h; exact le_of_not_lt hgt

theorem jsMaxIdx_spec (arr : List EvaluationItem) (h : arr ≠ []) :
    jsMaxIdx arr < arr.length ∧
      (∀ i < arr.length, weightAt arr i ≤ weightAt arr (jsMaxIdx arr)) ∧
      (∀ i < jsMaxIdx arr, weightAt arr i < weightAt arr (jsMaxIdx arr)) := by
  have := foldRangeArgmax (weightAt arr) arr.length
  rcases this with ⟨_, hlen⟩ | ⟨h1, h2, h3⟩
  · exact absurd (List.length_eq_zero.mp hlen) h
  · exact ⟨h1, h2, h3⟩

/-! #### Supporting lemmas -/

theorem mapWithIndex_equal_split (e r : ℚ) (k : ℕ) (hk : k ≠ 0)
    (xs : List EvaluationItem) :
    mapWithIndex (fun idx item => { item with weight := e + (if idx = 0 then r else 0) }) k xs
      = xs.map (fun it => { it with weight := e }) := by
  induction xs generalizing k with
  | nil => rfl
  | cons y ys ih =>
    simp only [mapWithIndex, List.map_cons, if_neg hk, add_zero]
    rw [ih (k + 1) (Nat.succ_ne_zero k)]

theorem chunk_recorded_successes (worker : ℕ → α → Except ε ρ) :
    ∀ (c : ℕ) (rest : List α) (i : ℕ),
      chunkSuccesses (settleChunk worker i (rest.take c)) ++
          recordedSuccesses worker (i + c) (rest.drop c)
        = recordedSuccesses worker i rest := by
  intro c
  induction c with
  | zero => intro rest i; simp [settleChunk, chunkSuccesses, recordedSuccesses]
  | succ c ih =>
    intro rest i
    cases rest with
    | nil => simp [settleChunk, chunkSuccesses, recordedSuccesses]
    | cons x xs =>
      simp only [List.take_succ_cons, List.drop_succ_cons, settleChunk, chunkSuccesses,
        List.filterMap_cons, recordedSuccesses]
      cases worker i x with
      | ok v =>
        simp only [List.cons_append]
        have := ih xs (i + 1)
        rw [show i + (c + 1) = i + 1 + c by omega]
        rw [chunkSuccesses] at this
        rw [this]
      | error e =>
        have := ih xs (i + 1)
        rw [show i + (c + 1) = i + 1 + c by omega]
        rw [chunkSuccesses] at this
        rw [this]

theorem chunk_recorded_failures (worker : ℕ → α → Except ε ρ) :
    ∀ (c : ℕ) (rest : List α) (i : ℕ),
      chunkFailures (settleChunk worker i (rest.take c)) ++
          recordedFailures worker (i + c) (rest.drop c)
        = recordedFailures worker i rest := by
  intro c
  induction c with
  | zero => intro rest i; simp [settleChunk, chunkFailures, recordedFailures]
  | succ c ih =>
    intro rest i
    cases rest with
    | nil => simp [settleChunk, chunkFailures, recordedFailures]
    | cons x xs =>
      simp only [List.take_succ_cons, List.drop_succ_cons, settleChunk, chunkFailures,
        List.filterMap_cons, recordedFailures]
      cases worker i x with
      | ok v =>
        have := ih xs (i + 1)
        rw [show i + (c + 1) = i + 1 + c by omega]
        rw [chunkFailures] at this
        rw [this]
      | error e =>
        simp only [List.cons_append]
        have := ih xs (i + 1)
        rw [show i + (c + 1) = i + 1 + c by omega]
        rw [chunkFailures] at this
        rw [this]

theorem processChunksGo_spec (worker : ℕ → α → Except ε ρ) (chunkSize : ℕ)
    (hc : 0 < chunkSize) :
    ∀ (fuel : ℕ) (rest : List α) (i : ℕ), rest.length ≤ fuel →
      processChunksGo worker chunkSize fuel i rest =
        (recordedSuccesses worker i rest, recordedFailures worker i rest) := by
  intro fuel
  induction fuel with
  | zero =>
    intro rest i h
    have : rest = [] := List.length_eq_zero.mp (Nat.le_zero.mp h)
    subst this
    rfl
  | succ fuel ih =>
    intro rest i h
    cases rest with
    | nil => rfl
    | cons x xs =>
      have hdrop : ((x :: xs).drop chunkSize).length ≤ fuel := by
        simp only [List.length_drop, List.length_cons]
        simp only [List.length_cons] at h
        omega
      simp only [processChunksGo, ih ((x :: xs).drop chunkSize) (i + chunkSize) hdrop]
      exact Prod.ext
        (chunk_recorded_successes worker chunkSize (x :: xs) i)
        (chunk_recorded_failures worker chunkSize (x :: xs) i)

theorem chunkProgressCalls_inorder (worker : ℕ → α → Except ε ρ) (total base : ℕ)
    (chunk : List α) :
    ∀ (m k : ℕ), ∀ c ∈ chunkProgressCalls worker total base chunk (List.range' k m) k,
      c.firstArg = c.settledAtCall ∧ c.secondArg = total := by
  intro m
  induction m with
  | zero => intro k c hc; simp [List.range', chunkProgressCalls] at hc
  | succ m ih =>
    intro k c hc
    simp only [List.range', chunkProgressCalls, List.mem_append] at hc
    rcases hc with hc | hc
    · split at hc
      · split at hc
        · simp only [List.mem_singleton] at hc
          subst hc
          exact ⟨rfl, rfl⟩
        · simp at hc
      · simp at hc
    · exact ih (k + 1) c hc

theorem processProgressGo_inorder (worker : ℕ → α → Except ε ρ) (chunkSize total : ℕ) :
    ∀ (fuel i : ℕ) (rest : List α),
      ∀ c ∈ processProgressGo worker chunkSize total fuel i rest [],
        c.firstArg = c.settledAtCall ∧ c.secondArg = total := by
  intro fuel
  induction fuel with
  | zero => intro i rest c hc; cases rest <;> simp [processProgressGo] at hc
  | succ fuel ih =>
    intro i rest c hc
    cases rest with
    | nil => simp [processProgressGo] at hc
    | cons x xs =>
      simp only [processProgressGo, List.headD_nil, List.tail_nil, List.mem_append] at hc
      rcases hc with hc | hc
      · have := chunkProgressCalls_inorder worker total i ((x :: xs).take chunkSize)
          ((x :: xs).take chunkSize).length 0 c
        rw [← List.range_eq_range'] at this
        exact this hc
      · exact ih (i + chunkSize) ((x :: xs).drop chunkSize) c hc

theorem startsWithL_self_append (sub post : List Char) :
    startsWithL sub (sub ++ post) = true := by
  induction sub with
  | nil => rfl
  | cons c cs ih => simp [startsWithL, ih]

theorem containsSub_here (sub post : List Char) :
    containsSub (sub ++ post) sub = true := by
  cases hs : sub ++ post with
  | nil =>
    have : sub = [] := by
      cases sub with
      | nil => rfl
      | cons c cs => simp at hs
    subst this
    simp [containsSub]
  | cons c rest =>
    rw [containsSub, ← hs]
    simp [startsWithL_self_append]

theorem containsSub_cons (c : Char) (rest sub : List Char)
    (h : containsSub rest sub = true) : containsSub (c :: rest) sub = true := by
  simp only [containsSub, Bool.decide_or, Bool.or_eq_true, decide_eq_true_eq]
  right
  simpa using h

theorem containsSub_append_left (pre l sub : List Char)
    (h : containsSub l sub = true) : containsSub (pre ++ l) sub = true := by
  induction pre with
  | nil => simpa using h
  | cons c cs ih => exact List.cons_append c cs l ▸ containsSub_cons c (cs ++ l) sub ih

/-! ## Claim theorems -/

/-- C1: for a document whose evaluation table has header row
`["", 試験, レポート, 平常点, "", その他, 合計]` and value row
`[総合評価割合, 80, 20, 0, 0, 0, 100]`, the table strategy of
`extractEvaluationCriteria` pairs header column N with value column N after
skipping the leading label column, drops every pair whose name is empty or
`合計` or whose value is non-numeric or non-positive, and returns exactly
`[{試験, 80}, {レポート, 20}]`. -/
theorem extractEvaluationCriteriaTable_scenario :
    (evalHeaderValue sampleEvalDoc).1 =
      ["".data, "試験".data, "レポート".data, "平常点".data, "".data, "その他".data,
        "合計".data] ∧
    (evalHeaderValue sampleEvalDoc).2 =
      ["80".data, "20".data, "0".data, "0".data, "0".data, "100".data] ∧
    evalNameOffset sampleEvalDoc = 1 ∧
    extractEvaluationCriteriaTable sampleEvalDoc = some [⟨"試験", 80⟩, ⟨"レポート", 20⟩] := by
  refine ⟨?_, ?_, ?_, ?_⟩ <;> decide

/-- C2: for a non-empty item list whose weight sum is neither 0 nor 100,
`normalizeToHundred` replaces each weight by
`floor(weight / sum * 100)` (the list `scaledOf items`) and adds the entire
residual `100 - sum(scaled)` to the item holding the largest scaled weight,
picking the first such item on ties. -/
theorem normalizeToHundred_residual_to_first_largest
    (items : List EvaluationItem) (h1 : items ≠ [])
    (h2 : sumWeights items ≠ 0) (h3 : sumWeights items ≠ 100) :
    ∃ j : ℕ, j < (scaledOf items).length ∧
      (∀ i < (scaledOf items).length,
        weightAt (scaledOf items) i ≤ weightAt (scaledOf items) j) ∧
      (∀ i < j, weightAt (scaledOf items) i < weightAt (scaledOf items) j) ∧
      normalizeToHundred items =
        listModify
          (fun it => { it with weight := it.weight + (100 - sumWeights (scaledOf items)) })
          j (scaledOf items) := by
  have hlen : ¬items.length = 0 := fun h => h1 (List.length_eq_zero.mp h)
  have hscaled : scaledOf items ≠ [] := by
    intro h
    exact h1 (List.map_eq_nil_iff.mp h)
  obtain ⟨hj1, hj2, hj3⟩ := jsMaxIdx_spec (scaledOf items) hscaled
  refine ⟨jsMaxIdx (scaledOf items), hj1, hj2, hj3, ?_⟩
  rw [normalizeToHundred, if_neg hlen, if_neg h3, if_neg h2]
  by_cases hdiff : 100 - sumWeights (scaledOf items) = 0
  · rw [if_pos hdiff]
    refine (listModify_id _ (fun a => ?_) _ _).symm
    rw [hdiff, add_zero]
  · rw [if_neg hdiff]

/-- Witness for C2 at the two-item list `[試験 = 80, レポート = 30]`
(sum 110): the scaled weights are `[72, 27]`, the residual 1 goes to the
first (largest) item, and the final result is `[試験 = 73, レポート = 27]`. -/
theorem normalizeToHundred_residual_to_first_largest_witness :
    (itemsSum110 ≠ [] ∧ sumWeights itemsSum110 ≠ 0 ∧ sumWeights itemsSum110 ≠ 100) ∧
    (∃ j : ℕ, j < (scaledOf itemsSum110).length ∧
      (∀ i < (scaledOf itemsSum110).length,
        weightAt (scaledOf itemsSum110) i ≤ weightAt (scaledOf itemsSum110) j) ∧
      (∀ i < j, weightAt (scaledOf itemsSum110) i < weightAt (scaledOf itemsSum110) j) ∧
      normalizeToHundred itemsSum110 =
        listModify
          (fun it =>
            { it with weight := it.weight + (100 - sumWeights (scaledOf itemsSum110)) })
          j (scaledOf itemsSum110)) ∧
    normalizeToHundred itemsSum110 = [⟨"試験", 73⟩, ⟨"レポート", 27⟩] :=
  ⟨⟨by simp [itemsSum110],
    by simp [itemsSum110, sumWeights]; norm_num,
    by simp [itemsSum110, sumWeights]; norm_num⟩,
   normalizeToHundred_residual_to_first_largest itemsSum110
     (by simp [itemsSum110])
     (by simp [itemsSum110, sumWeights]; norm_num)
     (by simp [itemsSum110, sumWeights]; norm_num),
   by
    simp [itemsSum110, normalizeToHundred, sumWeights, scaledOf, jsMaxIdx, weightAt,
      listModify, List.range_succ]
    norm_num [listModify]⟩

/-- C3: for a non-empty item list whose weights sum to 0,
`normalizeToHundred` gives every item the equal share `floor(100 / n)` and
adds the remainder `100 - n * floor(100 / n)` to the first item only. -/
theorem normalizeToHundred_zero_sum_equal_split
    (x : EvaluationItem) (xs : List EvaluationItem)
    (hsum : sumWeights (x :: xs) = 0) :
    normalizeToHundred (x :: xs) =
      { x with weight := equalShare (x :: xs) +
          (100 - equalShare (x :: xs) * (x :: xs).length) } ::
        xs.map (fun it => { it with weight := equalShare (x :: xs) }) := by
  have hlen : ¬(x :: xs).length = 0 := by simp
  have h100 : sumWeights (x :: xs) ≠ 100 := by rw [hsum]; norm_num
  rw [normalizeToHundred, if_neg hlen, if_neg h100, if_pos hsum, mapWithIndex]
  rw [mapWithIndex_equal_split _ _ 1 one_ne_zero]
  simp

/-- Witness for C3: three zero-weight items normalize to `[34, 33, 33]`
(the remainder of `100 - 3 * 33` goes to the first item), and a single
zero-weight item normalizes to `[100]`. -/
theorem normalizeToHundred_zero_sum_equal_split_witness :
    sumWeights zeroItems3 = 0 ∧
    normalizeToHundred zeroItems3 = [⟨"a", 34⟩, ⟨"b", 33⟩, ⟨"c", 33⟩] ∧
    normalizeToHundred [⟨"z", 0⟩] = [⟨"z", 100⟩] :=
  ⟨by simp [zeroItems3, sumWeights],
   (normalizeToHundred_zero_sum_equal_split ⟨"a", 0⟩ [⟨"b", 0⟩, ⟨"c", 0⟩]
      (by simp [sumWeights])).trans
    (by simp only [equalShare]; norm_num),
   (normalizeToHundred_zero_sum_equal_split ⟨"z", 0⟩ []
      (by simp [sumWeights])).trans
    (by simp only [equalShare]; norm_num)⟩

/-- C4 counterexample: the otherwise-valid candidate whose evaluation items
sum to 98 is accepted, but the accepted output's `evaluationCriteria` is
`[1.02, 98.98]` — the two-decimal result of `normalizeEvaluationPercentages`
— and not `[1, 99]`, the result of the Percentage Normalizer's
`normalizeToHundred` on the same weights; moreover the accepted record
validator output carries an empty error list, so no warning is appended to
it (the warning lives only in `validateEvaluationTotal`'s result). -/
theorem validateSyllabusDetail_output_not_normalizer_result :
    (validateSyllabusDetail candidateBoundary98).isValid = true ∧
    (validateSyllabusDetail candidateBoundary98).data.map SyllabusDetailR.evaluationCriteria
      = some [⟨"試験", 51 / 50⟩, ⟨"レポート", 4949 / 50⟩] ∧
    (validateSyllabusDetail candidateBoundary98).errors = [] ∧
    (normalizeToHundred [⟨"試験", 1⟩, ⟨"レポート", 97⟩]).map
        (fun it => (⟨it.name, it.weight⟩ : EvalCrit))
      = [⟨"試験", 1⟩, ⟨"レポート", 99⟩] ∧
    ([⟨"試験", (51 : ℚ) / 50⟩, ⟨"レポート", 4949 / 50⟩] : List EvalCrit)
      ≠ [⟨"試験", 1⟩, ⟨"レポート", 99⟩] := by
  refine ⟨?_, ?_, ?_, ?_, ?_⟩
  · simp [validateSyllabusDetail, syllabusDetailErrors, validateEvaluationTotal, sumPercentages,
      candidateBoundary98] <;> norm_num
  · simp [validateSyllabusDetail, syllabusDetailErrors, validateEvaluationTotal, sumPercentages,
      candidateBoundary98, normalizeEvaluationPercentages, fixRoundingError, jsRound,
      listModify] <;> norm_num [sumPercentages]
  · simp [validateSyllabusDetail, syllabusDetailErrors, validateEvaluationTotal, sumPercentages,
      candidateBoundary98] <;> norm_num
  · simp [normalizeToHundred, sumWeights, scaledOf, jsMaxIdx, weightAt, listModify,
      List.range_succ] <;> norm_num [listModify]
  · simp only [ne_eq, List.cons.injEq, EvalCrit.mk.injEq, not_and]
    intro h
    norm_num at h

/-- C4 amended: an otherwise-valid candidate whose evaluation items sum to
`s` with `|s - 100| ≤ 2` and `s ≠ 100` is accepted, the accepted output's
`evaluationCriteria` is `normalizeEvaluationPercentages`' result (two-decimal
proportional rounding with the residual added to the first item), the
warning is appended to `validateEvaluationTotal`'s errors while the record
validator's own error list stays empty; with `|s - 100| > 2` the record is
rejected. -/
theorem validateSyllabusDetail_tolerance_boundary
    (d : SyllabusDetailR)
    (hname : d.subjectName ≠ "") (hinstr : d.instructor ≠ "")
    (hcred : 1 ≤ d.credits ∧ d.credits ≤ 10)
    (hterm : d.term ∈ (["spring", "fall", "both"] : List String))
    (hclass : d.classType ∈ (["lecture", "practical", "experiment"] : List String))
    (hne : d.evaluationCriteria ≠ []) :
    ((|sumPercentages d.evaluationCriteria - 100| ≤ 2 ∧
        sumPercentages d.evaluationCriteria ≠ 100) →
      (validateSyllabusDetail d).isValid = true ∧
      (validateSyllabusDetail d).data.map SyllabusDetailR.evaluationCriteria
        = some (normalizeEvaluationPercentages d.evaluationCriteria) ∧
      (validateSyllabusDetail d).errors = [] ∧
      (validateEvaluationTotal d.evaluationCriteria).isValid = true ∧
      (validateEvaluationTotal d.evaluationCriteria).errors ≠ []) ∧
    (2 < |sumPercentages d.evaluationCriteria - 100| →
      (validateSyllabusDetail d).isValid = false ∧
      (validateSyllabusDetail d).errors ≠ []) := by
  have hlen : ¬d.evaluationCriteria.length = 0 :=
    fun h => hne (List.length_eq_zero.mp h)
  constructor
  · rintro ⟨htol, hs⟩
    have hval : validateEvaluationTotal d.evaluationCriteria =
        { isValid := true, total := 100
          errors := ["警告: 元々の合計は" ++ toString (sumPercentages d.evaluationCriteria) ++
            "%でしたが、正規化されました"]
          normalized := some (normalizeEvaluationPercentages d.evaluationCriteria) } := by
      rw [validateEvaluationTotal, if_neg hlen, if_neg hs, if_pos htol]
    have herr : syllabusDetailErrors d = [] := by
      rw [syllabusDetailErrors, if_neg hname, if_neg hinstr, if_neg (not_not_intro hcred),
        if_neg (not_not_intro hterm), if_neg (not_not_intro hclass), if_neg hlen, hval]
      simp
    rw [validateSyllabusDetail, if_neg (not_not_intro herr)]
    refine ⟨rfl, ?_, rfl, ?_, ?_⟩
    · rw [hval]
      rfl
    · rw [hval]
    · rw [hval]
      simp
  · intro hgt
    have hs : sumPercentages d.evaluationCriteria ≠ 100 := by
      intro h
      rw [h] at hgt
      norm_num at hgt
    have hval2 : validateEvaluationTotal d.evaluationCriteria =
        { isValid := false, total := sumPercentages d.evaluationCriteria
          errors :=
            ["評価割合の合計が" ++ toString (sumPercentages d.evaluationCriteria) ++
              "%です（100%である必要があります）"] ++
            (if sumPercentages d.evaluationCriteria > 100 then
              ["超過分: " ++ toString (sumPercentages d.evaluationCriteria - 100) ++ "%"]
            else ["不足分: " ++ toString (100 - sumPercentages d.evaluationCriteria) ++ "%"])
          normalized := none } := by
      rw [validateEvaluationTotal, if_neg hlen, if_neg hs, if_neg (not_le.mpr hgt)]
    have hne2 : syllabusDetailErrors d ≠ [] := by
      rw [syllabusDetailErrors, if_neg hname, if_neg hinstr, if_neg (not_not_intro hcred),
        if_neg (not_not_intro hterm), if_neg (not_not_intro hclass), if_neg hlen, hval2]
      simp
    rw [validateSyllabusDetail, if_pos hne2]
    exact ⟨rfl, hne2⟩

/-- Witness for C4 (amended) at the sum-98 candidate. -/
theorem validateSyllabusDetail_tolerance_boundary_witness :
    (candidateBoundary98.subjectName ≠ "" ∧ candidateBoundary98.instructor ≠ "" ∧
      (1 ≤ candidateBoundary98.credits ∧ candidateBoundary98.credits ≤ 10) ∧
      candidateBoundary98.term ∈ (["spring", "fall", "both"] : List String) ∧
      candidateBoundary98.classType ∈ (["lecture", "practical", "experiment"] : List String) ∧
      candidateBoundary98.evaluationCriteria ≠ []) ∧
    (((|sumPercentages candidateBoundary98.evaluationCriteria - 100| ≤ 2 ∧
        sumPercentages candidateBoundary98.evaluationCriteria ≠ 100) →
      (validateSyllabusDetail candidateBoundary98).isValid = true ∧
      (validateSyllabusDetail candidateBoundary98).data.map SyllabusDetailR.evaluationCriteria
        = some (normalizeEvaluationPercentages candidateBoundary98.evaluationCriteria) ∧
      (validateSyllabusDetail candidateBoundary98).errors = [] ∧
      (validateEvaluationTotal candidateBoundary98.evaluationCriteria).isValid = true ∧
      (validateEvaluationTotal candidateBoundary98.evaluationCriteria).errors ≠ []) ∧
    (2 < |sumPercentages candidateBoundary98.evaluationCriteria - 100| →
      (validateSyllabusDetail candidateBoundary98).isValid = false ∧
      (validateSyllabusDetail candidateBoundary98).errors ≠ [])) :=
  ⟨⟨by decide, by decide, by constructor <;> norm_num [candidateBoundary98], by decide,
    by decide, by decide⟩,
   validateSyllabusDetail_tolerance_boundary candidateBoundary98
     (by decide) (by decide) (by constructor <;> norm_num [candidateBoundary98])
     (by decide) (by decide) (by decide)⟩

/-- C5: the Record Assembler sets `classesPerSemester = credits * 15`,
`absenceThreshold = ceil(sessions / 10)` for experiment and
`floor(sessions / 3)` otherwise, and every assembled record starts with an
empty grade list, zero absences and an empty absence-record list; in
particular experiment with 2 credits gets ceiling 3 and lecture with 2
credits gets ceiling 10. -/
theorem syllabusDetailToSubject_derived_fields :
    (∀ (d : SyllabusDetailR) (sem : String) (y : ℕ),
      (syllabusDetailToSubject d sem y).classesPerSemester = d.credits * 15 ∧
      (syllabusDetailToSubject d sem y).absenceThreshold =
        (if d.classType = "experiment" then ((⌈d.credits * 15 / 10⌉ : ℤ) : ℚ)
         else ((⌊d.credits * 15 / 3⌋ : ℤ) : ℚ)) ∧
      (syllabusDetailToSubject d sem y).grades = [] ∧
      (syllabusDetailToSubject d sem y).absences = 0 ∧
      (syllabusDetailToSubject d sem y).absenceRecords = []) ∧
    (syllabusDetailToSubject experimentDetail "spring" 2025).classesPerSemester = 30 ∧
    (syllabusDetailToSubject experimentDetail "spring" 2025).absenceThreshold = 3 ∧
    (syllabusDetailToSubject lectureDetail "spring" 2025).absenceThreshold = 10 := by
  refine ⟨fun d sem y => ⟨rfl, rfl, rfl, rfl, rfl⟩, ?_, ?_, ?_⟩ <;>
    simp [syllabusDetailToSubject, experimentDetail, lectureDetail, practicalDetail] <;>
    norm_num

/-- C6 evidence: for a practical course with 2 credits (30 sessions), the
Record Assembler stores `absenceThreshold = floor(30 / 3) = 10`, while both
iterations of `calculateAbsenceLimit` compute `ceil(30 / 10) = 3` for the
very same assembled subject — the 1/10 practical rule holds only in the
grade calculator, not in the assembler. -/
theorem practical_absence_ceiling_divergence :
    practicalSubject.classType = "practical" ∧
    practicalSubject.classesPerSemester = 30 ∧
    practicalSubject.absenceThreshold = 10 ∧
    V1.calculateAbsenceLimit practicalSubject = 3 ∧
    V2.calculateAbsenceLimit practicalSubject = 3 ∧
    ((⌈(30 : ℚ) / 10⌉ : ℤ) : ℚ) = 3 := by
  refine ⟨rfl, ?_, ?_, ?_, ?_, ?_⟩ <;>
  · first
    | (simp [practicalSubject, syllabusDetailToSubject, practicalDetail,
        V1.calculateAbsenceLimit, V2.calculateAbsenceLimit, classCountOrForty]
       try norm_num)
    | norm_num

/-- C10: at a subject whose absences exactly equal its computed absence
limit (lecture, 30 sessions, limit 10, absences 10), the first iteration
(strict `>`) still reports the subject as able to pass with status `risk`
and no absence warning, while the second iteration (`>=`) reports it as
already failing with status `fail` and an absence warning. -/
theorem attendance_rule_disagreement_at_limit :
    subjectAtLimit.absences = V1.calculateAbsenceLimit subjectAtLimit ∧
    subjectAtLimit.absences = V2.calculateAbsenceLimit subjectAtLimit ∧
    V1.canStillPass subjectAtLimit = true ∧
    V2.canStillPass subjectAtLimit = false ∧
    (V1.getGradeStatus subjectAtLimit).status = "risk" ∧
    (V2.getGradeStatus subjectAtLimit).status = "fail" ∧
    (V1.getGradeStatus subjectAtLimit).absenceWarning = false ∧
    (V2.getGradeStatus subjectAtLimit).absenceWarning = true := by
  refine ⟨?_, ?_, ?_, ?_, ?_, ?_, ?_, ?_⟩ <;>
  · first
    | rfl
    | (simp [subjectAtLimit, syllabusDetailToSubject, lectureDetail, practicalDetail,
        V1.calculateAbsenceLimit, V2.calculateAbsenceLimit, V1.canStillPass, V2.canStillPass,
        V1.getGradeStatus, V2.getGradeStatus, V1.calculateRemainingAttendance,
        V2.calculateRemainingAttendance, classCountOrForty, calculateSubjectGrade,
        pointsNeededToPass]
       try norm_num)
    | norm_num [subjectAtLimit, syllabusDetailToSubject, lectureDetail, practicalDetail,
        V1.calculateAbsenceLimit, V2.calculateAbsenceLimit, classCountOrForty]

/-- C7: for any positive chunk size, `processInChunks` records exactly the
succeeding items' values in `successful` and exactly the failing items'
`{index, error, item}` entries in `failed` (both in index order, one entry
per item, so no item's failure removes any other item from `successful`),
with `total` the number of items. -/
theorem processInChunks_partition (items : List α) (worker : ℕ → α → Except ε ρ)
    (chunkSize : ℕ) (hc : 0 < chunkSize) :
    processInChunks items worker chunkSize =
      { successful := recordedSuccesses worker 0 items
        failed := recordedFailures worker 0 items
        total := items.length } := by
  rw [processInChunks, processChunksGo_spec worker chunkSize hc items.length items 0 le_rfl]

/-- Witness for C7: five items with chunk size 2 where the worker at index 2
always rejects — four successes, one failure, recorded at index 2, total 5. -/
theorem processInChunks_partition_witness :
    0 < 2 ∧
    processInChunks [10, 20, 30, 40, 50] rejectAtTwo 2 =
      { successful := [10, 20, 40, 50]
        failed := [⟨2, "boom", 30⟩]
        total := 5 } ∧
    (processInChunks [10, 20, 30, 40, 50] rejectAtTwo 2).successful.length = 4 ∧
    (processInChunks [10, 20, 30, 40, 50] rejectAtTwo 2).failed.length = 1 ∧
    ((processInChunks [10, 20, 30, 40, 50] rejectAtTwo 2).failed.headD ⟨0, "", 0⟩).index = 2 :=
  ⟨by decide,
   (processInChunks_partition [10, 20, 30, 40, 50] rejectAtTwo 2 (by decide)).trans (by decide),
   by decide, by decide, by decide⟩

/-- C8 counterexample: in a two-item chunk where both workers succeed but
the second one settles first, the first `onProgress` call passes `2` as its
first argument although only one item has settled at that moment — the
first argument is the item's global index + 1, not the settled count. -/
theorem onProgress_first_argument_not_settled_count :
    processInChunksProgress [10, 20] alwaysOk 2 [[1, 0]] =
      [⟨2, 2, 1⟩, ⟨1, 2, 2⟩] ∧
    ¬(∀ c ∈ processInChunksProgress [10, 20] alwaysOk 2 [[1, 0]],
        c.firstArg = c.settledAtCall) := by
  refine ⟨by decide, ?_⟩
  intro h
  have := h ⟨2, 2, 1⟩ (by decide)
  simp at this

/-- C8 amended: when every chunk settles in index order (the default
schedule), each successful item's `onProgress` call passes exactly the
number of items settled at the time of the call as its first argument and
the total item count as its second; under out-of-order settlement the first
argument is still the item's global index + 1, which can differ from the
settled count. -/
theorem onProgress_matches_settled_count_in_order (items : List α)
    (worker : ℕ → α → Except ε ρ) (chunkSize : ℕ) :
    ∀ c ∈ processInChunksProgress items worker chunkSize [],
      c.firstArg = c.settledAtCall ∧ c.secondArg = items.length :=
  fun c hc =>
    processProgressGo_inorder worker chunkSize items.length items.length 0 items c hc

/-- Witness for C8 (amended): the in-order trace of two successful items in
one chunk reports `(1, 2)` then `(2, 2)`, matching the settled counts. -/
theorem onProgress_matches_settled_count_in_order_witness :
    (⟨1, 2, 1⟩ : ProgressCall) ∈ processInChunksProgress [10, 20] alwaysOk 2 [] ∧
    ((⟨1, 2, 1⟩ : ProgressCall).firstArg = (⟨1, 2, 1⟩ : ProgressCall).settledAtCall ∧
      (⟨1, 2, 1⟩ : ProgressCall).secondArg = ([10, 20] : List ℕ).length) :=
  ⟨by decide,
   onProgress_matches_settled_count_in_order [10, 20] alwaysOk 2 ⟨1, 2, 1⟩ (by decide)⟩

set_option maxRecDepth 8000 in
/-- C9 counterexample: when Stage 1 is served by the response shape of
`src/app/api/syllabus/urls/route.ts` (which carries neither `scrapedUrl` nor
`totalLinks`), the zero-URL failure message falls back to echoing
`school_id`/`dept`/`year` and names neither the listing URL that route
attempted nor any link count. -/
theorem stage1_zero_url_message_misses_listing_url :
    zeroUrlFailureMessage (urlsRouteResponseMain []) "20" "工学科" 2025 =
      "シラバスURLが0件でした。school_id=20, dept=\"工学科\", year=2025" ∧
    stage1Outcome (urlsRouteResponseMain []) "20" "工学科" 2025 =
      .error (zeroUrlFailureMessage (urlsRouteResponseMain []) "20" "工学科" 2025) ∧
    buildSyllabusSearchUrl "20" "工学科" 3 2025 =
      "https://syllabus.kosen-k.go.jp/Pages/PublicSyllabus?school_id=20&dept_code=01&grade=3&year=2025" ∧
    containsSub ("シラバスURLが0件でした。school_id=20, dept=\"工学科\", year=2025").data
      (buildSyllabusSearchUrl "20" "工学科" 3 2025).data = false ∧
    containsSub ("シラバスURLが0件でした。school_id=20, dept=\"工学科\", year=2025").data
      "取得リンク数".data = false := by
  refine ⟨by decide, rfl, by decide, by decide, by decide⟩

set_option maxRecDepth 8000 in
/-- C9 amended: when Stage 1 is served by the urls-route iteration that
returns `scrapedUrl` and `totalLinks`, a zero-survivor outcome terminates
the invocation with a failure message that contains both the listing URL
attempted and the raw link count found. -/
theorem stage1_zero_url_message_names_url_and_count
    (schoolId : String) (departmentId year : ℕ) (allLinks : List String)
    (selId dept : String) (academicYear : ℕ) :
    stage1Outcome (urlsRouteResponseDiag schoolId departmentId year allLinks [])
        selId dept academicYear
      = .error (zeroUrlFailureMessage (urlsRouteResponseDiag schoolId departmentId year allLinks [])
          selId dept academicYear) ∧
    containsSub
      (zeroUrlFailureMessage (urlsRouteResponseDiag schoolId departmentId year allLinks [])
        selId dept academicYear).data
      (buildSubjectsUrl schoolId departmentId year).data = true ∧
    containsSub
      (zeroUrlFailureMessage (urlsRouteResponseDiag schoolId departmentId year allLinks [])
        selId dept academicYear).data
      (toString allLinks.length).data = true := by
  have hmsg : zeroUrlFailureMessage (urlsRouteResponseDiag schoolId departmentId year allLinks [])
      selId dept academicYear =
      "シラバスURLが0件でした。" ++
        ((("対象URL: " ++ buildSubjectsUrl schoolId departmentId year) ++ " / ") ++
          (("取得リンク数: " ++ toString allLinks.length) ++ "件（シラバスURL: 0件）")) := rfl
  refine ⟨rfl, ?_, ?_⟩
  · rw [hmsg]
    simp only [String.data_append, List.append_assoc]
    apply containsSub_append_left
    apply containsSub_append_left
    exact containsSub_here _ _
  · rw [hmsg]
    simp only [String.data_append, List.append_assoc]
    apply containsSub_append_left
    apply containsSub_append_left
    apply containsSub_append_left
    apply containsSub_append_left
    apply containsSub_append_left
    exact containsSub_here _ _
